import Mathlib

/-!
Verification of the AI-Nesting-Optimizer core (src/geometry_utils.py and
src/nesting_optimizer.py) against its specification.

Modelling conventions.
  * Python floats are modelled by exact rationals (ℚ); the float literal
    1e-6 is modelled by the rational 1/1000000.  Where a claim is about the
    exact real value of a float computation (the circle area claim), the
    computation is modelled over ℝ with Real.pi / Real.cos / Real.sin.
  * A Python dict describing a part is modelled by the structure PartInfo:
    the always-present keys id and type are plain fields, the optional
    numeric keys (quantity, width, height, radius, base) are Option fields;
    a missing-key lookup is a KeyError, modelled by the error value
    PartErr.missingKey.
  * shapely is an external library, not part of this repository.  A shapely
    polygon is modelled by its list of vertices (counterclockwise, as the
    source constructs them); shapely operations used by the source
    (rotate, translate, bounds, area, intersects, intersection(..).area)
    are collected in the Geom interface so that loop-structure claims can
    be settled for every geometry backend, and are instantiated by the
    concrete rational backend below (translate/bounds/area exact,
    polygon intersection by convex clipping, the float cos/sin/pi of the
    circle and rotation paths as explicit rational parameters in Trig).
  * The Python exception machinery of the evaluation loops (`try ... except:
    continue`) is modelled by shape construction returning an Option: the
    only failing operation inside the guarded block is
    create_part_from_dict (unsupported type tag, or a missing dict key).
-/

/-- Error raised by the geometry helpers: ValueError for an unsupported
part type tag, or KeyError for a missing dict key. -/
inductive PartErr where
  | unsupportedType : PartErr
  | missingKey : PartErr
deriving DecidableEq, Repr

/-- A part-description dict.  id and type are the always-present keys;
quantity, width, height, radius, base are optional numeric keys. -/
structure PartInfo where
  id : String
  type : String
  quantity? : Option Int
  width? : Option ℚ
  height? : Option ℚ
  radius? : Option ℚ
  base? : Option ℚ
deriving DecidableEq, Repr

/-- Replace the type tag of a part dict, keeping every other key. -/
def setType (p : PartInfo) (t : String) : PartInfo :=
  ⟨p.id, t, p.quantity?, p.width?, p.height?, p.radius?, p.base?⟩

/-- Replace the id of a part dict, keeping every other key: this is
part.copy() followed by overwriting the id key. -/
def setId (p : PartInfo) (s : String) : PartInfo :=
  ⟨s, p.type, p.quantity?, p.width?, p.height?, p.radius?, p.base?⟩

/-- Python str.lower() on the ASCII tags the source compares against,
written structurally over the character list (Lean's own String.toLower
is the same map but is defined by well-founded recursion and so does not
evaluate inside proofs). -/
def pyLower (s : String) : String := ⟨s.data.map Char.toLower⟩

/-- A point of the rational plane. -/
abbrev Pt := ℚ × ℚ

/-- A shapely polygon, modelled by its vertex list (counterclockwise). -/
abbrev QShape := List Pt

/-- Rational stand-ins for the floating-point cos, sin and np.pi used by
the circle construction and by shapely's rotate. -/
structure Trig where
  cosF : ℚ → ℚ
  sinF : ℚ → ℚ
  piQ : ℚ

/-- The vertex list of shapely's box(minx, miny, maxx, maxy), which is
counterclockwise starting from (maxx, miny). -/
def boxShape (minx miny maxx maxy : ℚ) : QShape :=
  [(maxx, miny), (maxx, maxy), (minx, maxy), (minx, miny)]

/-- The 32 sample angles np.linspace(0, 2*np.pi, 32, endpoint=False):
k * (2*pi) / 32 for k = 0, ..., 31. -/
def circleShape (tr : Trig) (radius : ℚ) : QShape :=
  (List.range 32).map fun k =>
    (radius * tr.cosF (2 * tr.piQ * k / 32), radius * tr.sinF (2 * tr.piQ * k / 32))

/-- geometry_utils.create_part_from_dict: build a shapely geometry from a
part dict, dispatching on the lower-cased type tag; ValueError
(unsupportedType) for any other tag, KeyError (missingKey) for a missing
numeric field. -/
def create_part_from_dict (tr : Trig) (p : PartInfo) : Except PartErr QShape :=
  let t := pyLower p.type
  if t = "rectangle" then
    match p.width?, p.height? with
    | some width, some height =>
        Except.ok (boxShape (-width/2) (-height/2) (width/2) (height/2))
    | _, _ => Except.error PartErr.missingKey
  else if t = "circle" then
    match p.radius? with
    | some radius => Except.ok (circleShape tr radius)
    | none => Except.error PartErr.missingKey
  else if t = "triangle" then
    match p.base?, p.height? with
    | some base, some height =>
        Except.ok [(-base/2, -height/3), (base/2, -height/3), (0, 2*height/3)]
    | _, _ => Except.error PartErr.missingKey
  else
    Except.error PartErr.unsupportedType

/-- geometry_utils.get_part_bounds: bounding-box dimensions of a part,
dispatching on the lower-cased type tag. -/
def get_part_bounds (p : PartInfo) : Except PartErr (ℚ × ℚ) :=
  let t := pyLower p.type
  if t = "rectangle" then
    match p.width?, p.height? with
    | some width, some height => Except.ok (width, height)
    | _, _ => Except.error PartErr.missingKey
  else if t = "circle" then
    match p.radius? with
    | some radius => Except.ok (2 * radius, 2 * radius)
    | none => Except.error PartErr.missingKey
  else if t = "triangle" then
    match p.base?, p.height? with
    | some base, some height => Except.ok (base, height)
    | _, _ => Except.error PartErr.missingKey
  else
    Except.error PartErr.unsupportedType

/-- geometry_utils.calculate_part_area: closed-form area of a part,
dispatching on the lower-cased type tag (np.pi modelled by tr.piQ). -/
def calculate_part_area (tr : Trig) (p : PartInfo) : Except PartErr ℚ :=
  let t := pyLower p.type
  if t = "rectangle" then
    match p.width?, p.height? with
    | some width, some height => Except.ok (width * height)
    | _, _ => Except.error PartErr.missingKey
  else if t = "circle" then
    match p.radius? with
    | some radius => Except.ok (tr.piQ * radius * radius)
    | none => Except.error PartErr.missingKey
  else if t = "triangle" then
    match p.base?, p.height? with
    | some base, some height => Except.ok (1/2 * base * height)
    | _, _ => Except.error PartErr.missingKey
  else
    Except.error PartErr.unsupportedType

/-! ### Concrete rational model of the shapely operations the source uses -/

/-- Pair every vertex of a polygon with its cyclic successor. -/
def cyclePairs {α : Type} (l : List α) : List (α × α) :=
  match l with
  | [] => []
  | a :: rest => l.zip (rest ++ [a])

/-- Twice the signed area of a polygon (the shoelace sum). -/
def shoelaceQ (pts : QShape) : ℚ :=
  ((cyclePairs pts).map fun pq => pq.1.1 * pq.2.2 - pq.2.1 * pq.1.2).sum

/-- shapely Polygon(...).area: absolute polygon area. -/
def areaQ (pts : QShape) : ℚ := |shoelaceQ pts| / 2

/-- shapely bounds: (min_x, min_y, max_x, max_y) over the vertices. -/
def boundsQ : QShape → ℚ × ℚ × ℚ × ℚ
  | [] => (0, 0, 0, 0)
  | p :: ps =>
      ps.foldl
        (fun acc q => (min acc.1 q.1, min acc.2.1 q.2, max acc.2.2.1 q.1, max acc.2.2.2 q.2))
        (p.1, p.2, p.1, p.2)

/-- shapely translate: shift every vertex by (x, y). -/
def translateQ (pts : QShape) (x y : ℚ) : QShape :=
  pts.map fun p => (p.1 + x, p.2 + y)

/-- shapely rotate(geom, angle, origin='center', use_radians=True): rotate
every vertex about the bounding-box center, the float cos/sin supplied by
tr. -/
def rotateQ (tr : Trig) (pts : QShape) (ang : ℚ) : QShape :=
  let b := boundsQ pts
  let cx := (b.1 + b.2.2.1) / 2
  let cy := (b.2.1 + b.2.2.2) / 2
  let c := tr.cosF ang
  let s := tr.sinF ang
  pts.map fun p => (cx + c * (p.1 - cx) - s * (p.2 - cy), cy + s * (p.1 - cx) + c * (p.2 - cy))

/-- Cross product (b - a) x (p - a); nonnegative iff p is on or to the
left of the directed line a -> b. -/
def cross2 (a b p : Pt) : ℚ :=
  (b.1 - a.1) * (p.2 - a.2) - (b.2 - a.2) * (p.1 - a.1)

/-- Point where the segment s -> e meets the line a -> b (called only when
the segment crosses the line, so the denominator is nonzero). -/
def lineInter (a b s e : Pt) : Pt :=
  let d1 := cross2 a b s
  let d2 := cross2 a b e
  let t := d1 / (d1 - d2)
  (s.1 + t * (e.1 - s.1), s.2 + t * (e.2 - s.2))

/-- One Sutherland-Hodgman step: clip a polygon by the half-plane on the
left of the directed edge a -> b. -/
def clipEdge (a b : Pt) (poly : List Pt) : List Pt :=
  (cyclePairs poly).flatMap fun se =>
    let s := se.1
    let e := se.2
    if 0 ≤ cross2 a b e then
      if 0 ≤ cross2 a b s then [e] else [lineInter a b s e, e]
    else
      if 0 ≤ cross2 a b s then [lineInter a b s e] else []

/-- Sutherland-Hodgman clipping of polygon A by convex counterclockwise
polygon B; every shape the source builds is convex, where this computes
the intersection polygon exactly. -/
def clipPoly (A B : QShape) : List Pt :=
  (cyclePairs B).foldl (fun acc ab => clipEdge ab.1 ab.2 acc) A

/-- shapely A.intersection(B).area for the convex polygons the source
builds. -/
def interAreaQ (A B : QShape) : ℚ := areaQ (clipPoly A B)

/-- shapely A.intersects(B), modelled as positive intersection area.  (For
boundary-only contact shapely reports True with area 0; the evaluation
loops only ever use `intersects` conjoined with `area > 1e-6`, and the two
models agree on that conjunction.) -/
def intersectsQ (A B : QShape) : Bool := decide (0 < interAreaQ A B)

/-! ### The geometry interface consumed by the optimizer loops -/

/-- The shapely operations invoked by evaluate_layout and
calculate_layout_stats, abstracted so the loop claims hold for every
geometry backend; `create` returns none when shape construction raises
(the only raising operation inside the loops' try blocks). -/
structure Geom (S : Type) where
  create : PartInfo → Option S
  rotateShape : S → ℚ → S
  translateShape : S → ℚ → ℚ → S
  boundsOf : S → ℚ × ℚ × ℚ × ℚ
  area : S → ℚ
  intersects : S → S → Bool
  interArea : S → S → ℚ

/-- The concrete rational geometry backend. -/
def QGeom (tr : Trig) : Geom QShape :=
  ⟨fun p => (create_part_from_dict tr p).toOption,
   rotateQ tr, translateQ, boundsQ, areaQ, intersectsQ, interAreaQ⟩

/-- A degenerate one-point geometry backend (used to exhibit satisfying
instances of the abstract hypotheses). -/
def UnitGeom : Geom Unit :=
  ⟨fun _ => some (), fun s _ => s, fun s _ _ => s, fun _ => (0, 0, 0, 0),
   fun _ => 0, fun _ _ => false, fun _ _ => 0⟩

/-! ### nesting_optimizer.py: the evaluation loops -/

/-- The float literal 1e-6 of the overlap tolerance, as a rational. -/
def EPS : ℚ := 1 / 1000000

/-- One decoded layout entry: (part_info, x, y, rotation). -/
abbrev Entry := PartInfo × ℚ × ℚ × ℚ

/-- One iteration of the placement loop of
NestingOptimizer.evaluate_layout: build the shape (a construction failure
skips the part), rotate if the rotation is nonzero, translate, reject
unless the bounds lie inside the sheet, reject when some already placed
shape overlaps it by more than 1e-6, otherwise append it and add its
area. -/
def eval_step {S : Type} (G : Geom S) (W H : ℚ) (acc : List S × ℚ) (entry : Entry) :
    List S × ℚ :=
  match G.create entry.1 with
  | none => acc
  | some s0 =>
    let s1 := if entry.2.2.2 ≠ 0 then G.rotateShape s0 entry.2.2.2 else s0
    let sh := G.translateShape s1 entry.2.1 entry.2.2.1
    let b := G.boundsOf sh
    if 0 ≤ b.1 ∧ 0 ≤ b.2.1 ∧ b.2.2.1 ≤ W ∧ b.2.2.2 ≤ H then
      let overl := acc.1.any fun ps => G.intersects sh ps && decide (EPS < G.interArea sh ps)
      if overl then acc else (acc.1 ++ [sh], acc.2 + G.area sh)
    else acc

/-- The placement loop of NestingOptimizer.evaluate_layout: fold
eval_step over the layout in order, returning (placed_parts,
total_area). -/
def place_loop {S : Type} (G : Geom S) (layout : List Entry) (W H : ℚ) : List S × ℚ :=
  layout.foldl (eval_step G W H) ([], 0)

/-- The utilization computed on line 109 of nesting_optimizer.py:
(total_area / sheet_area) * 100 if sheet_area > 0 else 0. -/
def utilization_of {S : Type} (G : Geom S) (layout : List Entry) (W H : ℚ) : ℚ :=
  if 0 < W * H then (place_loop G layout W H).2 / (W * H) * 100 else 0

/-- The placement ratio computed on line 112 of nesting_optimizer.py:
len(placed_parts) / len(self.parts) if self.parts else 0 (the layout has
one entry per expanded part, so len(self.parts) is the layout length). -/
def placement_ratio_of {S : Type} (G : Geom S) (layout : List Entry) (W H : ℚ) : ℚ :=
  if layout.length ≠ 0 then
    ((place_loop G layout W H).1.length : ℚ) / (layout.length : ℚ)
  else 0

/-- NestingOptimizer.evaluate_layout: run the placement loop, then return
utilization * (0.5 + 0.5 * placement_ratio). -/
def evaluate_layout {S : Type} (G : Geom S) (layout : List Entry) (W H : ℚ) : ℚ :=
  let pl := place_loop G layout W H
  let sheet_area := W * H
  let utilization := if 0 < sheet_area then pl.2 / sheet_area * 100 else 0
  let frac := if layout.length ≠ 0 then (pl.1.length : ℚ) / (layout.length : ℚ) else 0
  utilization * (1/2 + 1/2 * frac)

/-- One iteration of the placement loop of
NestingOptimizer.calculate_layout_stats (same accept/skip procedure, with
a parts_placed counter as third accumulator). -/
def stats_step {S : Type} (G : Geom S) (W H : ℚ) (acc : List S × ℚ × ℕ) (entry : Entry) :
    List S × ℚ × ℕ :=
  match G.create entry.1 with
  | none => acc
  | some s0 =>
    let s1 := if entry.2.2.2 ≠ 0 then G.rotateShape s0 entry.2.2.2 else s0
    let sh := G.translateShape s1 entry.2.1 entry.2.2.1
    let b := G.boundsOf sh
    if 0 ≤ b.1 ∧ 0 ≤ b.2.1 ∧ b.2.2.1 ≤ W ∧ b.2.2.2 ≤ H then
      let valid := !(acc.1.any fun ps => G.intersects sh ps && decide (EPS < G.interArea sh ps))
      if valid then (acc.1 ++ [sh], acc.2.1 + G.area sh, acc.2.2 + 1) else acc
    else acc

/-- The placement loop of NestingOptimizer.calculate_layout_stats,
returning (placed_parts, total_area, parts_placed). -/
def stats_loop {S : Type} (G : Geom S) (layout : List Entry) (W H : ℚ) : List S × ℚ × ℕ :=
  layout.foldl (stats_step G W H) ([], 0, 0)

/-- The statistics record returned by calculate_layout_stats. -/
structure PlacementStats where
  utilization : ℚ
  parts_placed : ℕ
  total_parts : ℕ
  total_area : ℚ
  sheet_area : ℚ
  waste_area : ℚ
deriving DecidableEq, Repr

/-- Python division: raises ZeroDivisionError (none) on a zero
denominator. -/
def pydiv (a b : ℚ) : Option ℚ := if b = 0 then none else some (a / b)

/-- NestingOptimizer.calculate_layout_stats: run the placement loop, then
build the statistics record; its utilization line (total_area /
sheet_area) * 100 has no zero-sheet guard, so a zero sheet area raises
ZeroDivisionError (none). -/
def calculate_layout_stats {S : Type} (G : Geom S) (layout : List Entry) (W H : ℚ) :
    Option PlacementStats :=
  let r := stats_loop G layout W H
  let sheet_area := W * H
  (pydiv r.2.1 sheet_area).map fun q =>
    ⟨q * 100, r.2.2, layout.length, r.2.1, sheet_area, sheet_area - r.2.1⟩

/-! ### nesting_optimizer.py: genotypes and genetic operators -/

/-- A DEAP individual: the flat gene list plus its cached fitness
(none when the cached fitness has been invalidated). -/
structure Individual where
  genes : List ℚ
  fitness : Option ℚ
deriving DecidableEq, Repr

/-- NestingOptimizer.crossover with the result r of
random.randrange(1, len(ind1) // 3) supplied explicitly: when the genome
is longer than 3 genes, swap the tails at the part-aligned cut index
r * 3; both offspring's cached fitness is deleted. -/
def crossover (r : ℕ) (ind1 ind2 : Individual) : Individual × Individual :=
  if 3 < ind1.genes.length then
    let cp := r * 3
    (⟨ind1.genes.take cp ++ ind2.genes.drop cp, none⟩,
     ⟨ind2.genes.take cp ++ ind1.genes.drop cp, none⟩)
  else
    (⟨ind1.genes, none⟩, ⟨ind2.genes, none⟩)

/-- NestingOptimizer.expand_parts_list: for each entry, read quantity with
default 1 and emit one copy per replica, the id suffixed _1.._quantity
when quantity > 1 and kept unchanged otherwise (range(q) is empty for
q <= 0, Int.toNat is the model of that). -/
def expand_parts_list (parts_data : List PartInfo) : List PartInfo :=
  parts_data.flatMap fun part =>
    let quantity : Int := part.quantity?.getD 1
    (List.range quantity.toNat).map fun i =>
      setId part (if 1 < quantity then part.id ++ "_" ++ toString (i + 1) else part.id)

/-- NestingOptimizer.create_individual with the random draws supplied as
streams rx, ry, rr indexed by part position: three genes (x, y, rotation)
per part, fitness not yet evaluated. -/
def create_individual (rx ry rr : ℕ → ℚ) (parts : List PartInfo) : Individual :=
  ⟨(List.range parts.length).flatMap fun i => [rx i, ry i, rr i], none⟩

/-! ### The circle branch in exact real arithmetic

For the claim comparing the closed-form circle area of
calculate_part_area with the polygon approximation built by
create_part_from_dict, the float computation is interpreted over ℝ with
the exact π, cos and sin. -/

/-- Vertex k of the circle polygon: (r cos(2πk/32), r sin(2πk/32)). -/
noncomputable def circle_pt (r : ℝ) (k : ℕ) : ℝ × ℝ :=
  (r * Real.cos (2 * Real.pi * k / 32), r * Real.sin (2 * Real.pi * k / 32))

/-- The circle branch of create_part_from_dict over ℝ: the 32-vertex
polygon at the angles np.linspace(0, 2π, 32, endpoint=False). -/
noncomputable def circle_poly_real (r : ℝ) : List (ℝ × ℝ) :=
  (List.range 32).map (circle_pt r)

/-- Twice the signed polygon area over ℝ (the shoelace sum). -/
noncomputable def shoelaceR (pts : List (ℝ × ℝ)) : ℝ :=
  ((cyclePairs pts).map fun pq => pq.1.1 * pq.2.2 - pq.2.1 * pq.1.2).sum

/-- shapely Polygon(...).area over ℝ: absolute polygon area. -/
noncomputable def polygon_area_real (pts : List (ℝ × ℝ)) : ℝ := |shoelaceR pts| / 2

/-- The circle branch of calculate_part_area over ℝ: np.pi * r * r. -/
noncomputable def circle_area_closed (r : ℝ) : ℝ := Real.pi * r * r

/-- A concrete rational stand-in for the float trig functions.  The
concrete layouts evaluated below contain only rectangles placed with
rotation 0, a path on which the source never calls cos, sin or np.pi, so
any values serve. -/
def tr0 : Trig := ⟨fun _ => 1, fun _ => 0, 355/113⟩

/-- A sample part dict used by concrete instantiations. -/
def wPart : PartInfo := ⟨"p", "rectangle", none, some 1, some 1, none, none⟩

/-- A rectangle part dict of the given width and height. -/
def boxPart (w h : ℚ) : PartInfo := ⟨"b", "rectangle", none, some w, some h, none, none⟩

/-- Two identical sheet-sized rectangles stacked on the same spot of a
(1/1024)-square sheet: each covers the whole sheet (area 2^-20, below the
1e-6 overlap tolerance), so the second is accepted on top of the first. -/
def stackedLayout : List Entry :=
  [(boxPart (1/1024) (1/1024), 1/2048, 1/2048, 0), (boxPart (1/1024) (1/1024), 1/2048, 1/2048, 0)]

/-- Two parts on a 10 x 10 sheet of which only the first (area 2) is
accepted: the second overlaps it. -/
def dropLayout : List Entry := [(boxPart 2 1, 5, 5, 0), (boxPart 1 1, 5, 5, 0)]

/-- Two disjoint unit squares on a 10 x 10 sheet, both accepted (total
area 2 as well, but two parts placed). -/
def fullLayout : List Entry := [(boxPart 1 1, 2, 2, 0), (boxPart 1 1, 5, 5, 0)]

/-- A concrete six-gene parent with a cached fitness. -/
def wInd1 : Individual := ⟨[0, 1, 2, 3, 4, 5], some 7⟩

/-- A second concrete six-gene parent with a cached fitness. -/
def wInd2 : Individual := ⟨[10, 11, 12, 13, 14, 15], some 8⟩

/-- A part dict whose type tag no branch supports. -/
def hexPart : PartInfo := ⟨"p1", "hexagon", none, none, none, none, none⟩

/-- A circle part dict with quantity 3. -/
def circPart3 : PartInfo := ⟨"c1", "circle", some 3, none, none, some 2, none⟩

/-- A rectangle part dict with a negative quantity. -/
def negPart : PartInfo := ⟨"z", "rectangle", some (-2), some 1, some 1, none, none⟩

/-- A circle part dict whose type tag is upper-case. -/
def capsCircPart : PartInfo := ⟨"c", "CIRCLE", none, none, none, some 2, none⟩

/-! ## Helper lemmas -/

/-- One statistics-loop iteration computes the same placed list and total
area as one evaluation-loop iteration, and increments parts_placed
exactly by the growth of the placed list. -/
theorem step_agree {S : Type} (G : Geom S) (W H : ℚ) (pl : List S) (t : ℚ) (n : ℕ) (e : Entry) :
    stats_step G W H (pl, t, n) e =
      ((eval_step G W H (pl, t) e).1, (eval_step G W H (pl, t) e).2,
        n + ((eval_step G W H (pl, t) e).1.length - pl.length)) := by
  rcases e with ⟨p, x, y, rot⟩
  simp only [stats_step, eval_step]
  rcases G.create p with _ | s0
  · simp
  · simp only []
    set sh := G.translateShape (if rot ≠ 0 then G.rotateShape s0 rot else s0) x y with hsh
    by_cases hbnd : 0 ≤ (G.boundsOf sh).1 ∧ 0 ≤ (G.boundsOf sh).2.1 ∧
        (G.boundsOf sh).2.2.1 ≤ W ∧ (G.boundsOf sh).2.2.2 ≤ H
    · simp only [if_pos hbnd]
      cases hany : pl.any fun ps => G.intersects sh ps && decide (EPS < G.interArea sh ps)
      · simp [hany]
      · simp [hany]
    · simp [if_neg hbnd]

/-- An evaluation-loop iteration either leaves the accumulator unchanged
or accepts the transformed shape: it appends it and adds its area. -/
theorem eval_step_cases {S : Type} (G : Geom S) (W H : ℚ) (acc : List S × ℚ) (e : Entry) :
    eval_step G W H acc e = acc ∨
      ∃ sh, eval_step G W H acc e = (acc.1 ++ [sh], acc.2 + G.area sh) := by
  rcases e with ⟨p, x, y, rot⟩
  simp only [eval_step]
  rcases G.create p with _ | s0
  · exact Or.inl rfl
  · simp only []
    set sh := G.translateShape (if rot ≠ 0 then G.rotateShape s0 rot else s0) x y with hsh
    by_cases hbnd : 0 ≤ (G.boundsOf sh).1 ∧ 0 ≤ (G.boundsOf sh).2.1 ∧
        (G.boundsOf sh).2.2.1 ≤ W ∧ (G.boundsOf sh).2.2.2 ≤ H
    · simp only [if_pos hbnd]
      cases hany : acc.1.any fun ps => G.intersects sh ps && decide (EPS < G.interArea sh ps)
      · exact Or.inr ⟨sh, by simp [hany]⟩
      · simp [hany]
    · simp [if_neg hbnd]

/-- The evaluation loop never shortens the placed list. -/
theorem foldl_eval_length_mono {S : Type} (G : Geom S) (W H : ℚ) :
    ∀ (l : List Entry) (acc : List S × ℚ),
      acc.1.length ≤ (l.foldl (eval_step G W H) acc).1.length := by
  intro l
  induction l with
  | nil => intro acc; simp
  | cons e rest ih =>
    intro acc
    simp only [List.foldl_cons]
    refine le_trans ?_ (ih _)
    rcases eval_step_cases G W H acc e with hg | ⟨sh, hg⟩ <;> simp [hg]

/-- The two placement loops agree from any pair of matching accumulator
states. -/
theorem loops_agree {S : Type} (G : Geom S) (W H : ℚ) :
    ∀ (layout : List Entry) (pl : List S) (t : ℚ) (n : ℕ),
      layout.foldl (stats_step G W H) (pl, t, n) =
        ((layout.foldl (eval_step G W H) (pl, t)).1,
         (layout.foldl (eval_step G W H) (pl, t)).2,
         n + ((layout.foldl (eval_step G W H) (pl, t)).1.length - pl.length)) := by
  intro layout
  induction layout with
  | nil => intro pl t n; simp
  | cons e rest ih =>
    intro pl t n
    simp only [List.foldl_cons]
    rw [step_agree]
    rcases eval_step_cases G W H (pl, t) e with hg | ⟨sh, hg⟩ <;> rw [hg] <;> simp only [] <;> rw [ih]
    · simp
    · have hmono := foldl_eval_length_mono G W H rest (pl ++ [sh], t + G.area sh)
      simp only [Prod.mk.injEq, true_and]
      simp only [List.length_append, List.length_cons, List.length_nil] at hmono ⊢
      omega

/-! ## Claim theorems -/

/-- Claim C1: for every geometry backend, every layout and every sheet,
the sequential accept/skip loop of evaluate_layout and the one of
calculate_layout_stats accept exactly the same shapes (the same placed
list, hence the same subset of parts, with parts_placed equal to its
size) and compute the same total accepted area. -/
theorem C1_eval_and_stats_accept_same {S : Type} (G : Geom S) (layout : List Entry) (W H : ℚ) :
    stats_loop G layout W H =
      ((place_loop G layout W H).1, (place_loop G layout W H).2,
       (place_loop G layout W H).1.length) := by
  have h := loops_agree G W H layout [] 0 0
  simpa [stats_loop, place_loop] using h

/-- Like eval_step_cases, but an accepted shape comes with the facts the
acceptance test established: its bounds lie in the sheet and the overlap
scan over the already placed shapes returned false. -/
theorem eval_step_cases_strong {S : Type} (G : Geom S) (W H : ℚ) (acc : List S × ℚ) (e : Entry) :
    eval_step G W H acc e = acc ∨
      ∃ sh, (0 ≤ (G.boundsOf sh).1 ∧ 0 ≤ (G.boundsOf sh).2.1 ∧
              (G.boundsOf sh).2.2.1 ≤ W ∧ (G.boundsOf sh).2.2.2 ≤ H) ∧
        (acc.1.any fun ps => G.intersects sh ps && decide (EPS < G.interArea sh ps)) = false ∧
        eval_step G W H acc e = (acc.1 ++ [sh], acc.2 + G.area sh) := by
  rcases e with ⟨p, x, y, rot⟩
  simp only [eval_step]
  rcases G.create p with _ | s0
  · exact Or.inl rfl
  · simp only []
    set sh := G.translateShape (if rot ≠ 0 then G.rotateShape s0 rot else s0) x y with hsh
    by_cases hbnd : 0 ≤ (G.boundsOf sh).1 ∧ 0 ≤ (G.boundsOf sh).2.1 ∧
        (G.boundsOf sh).2.2.1 ≤ W ∧ (G.boundsOf sh).2.2.2 ≤ H
    · simp only [if_pos hbnd]
      cases hany : acc.1.any fun ps => G.intersects sh ps && decide (EPS < G.interArea sh ps)
      · exact Or.inr ⟨sh, hbnd, hany, by simp [hany]⟩
      · simp [hany]
    · simp [if_neg hbnd]

/-- A false overlap scan bounds the intersection area with every already
placed shape by the tolerance (a non-intersecting pair has intersection
area 0). -/
theorem no_overlap_of_any_false {S : Type} (G : Geom S)
    (hemp : ∀ a b, G.intersects a b = false → G.interArea a b = 0)
    (sh : S) (l : List S)
    (h : (l.any fun ps => G.intersects sh ps && decide (EPS < G.interArea sh ps)) = false) :
    ∀ ps ∈ l, G.interArea sh ps ≤ EPS := by
  intro ps hps
  have h2 := List.any_eq_false.mp h ps hps
  by_cases hi : G.intersects sh ps = true
  · simp only [hi, Bool.true_and] at h2
    simpa using h2
  · have := hemp sh ps (by simpa using hi)
    rw [this]
    norm_num [EPS]

/-- The acceptance invariant (bounds inside the sheet, pairwise overlap
within tolerance) is preserved by the evaluation loop from any
accumulator state satisfying it. -/
theorem eval_inv_preserved {S : Type} (G : Geom S)
    (hsym : ∀ a b, G.interArea a b = G.interArea b a)
    (hemp : ∀ a b, G.intersects a b = false → G.interArea a b = 0) (W H : ℚ) :
    ∀ (l : List Entry) (acc : List S × ℚ),
      (∀ sh ∈ acc.1, 0 ≤ (G.boundsOf sh).1 ∧ 0 ≤ (G.boundsOf sh).2.1 ∧
          (G.boundsOf sh).2.2.1 ≤ W ∧ (G.boundsOf sh).2.2.2 ≤ H) →
      List.Pairwise (fun a b => G.interArea a b ≤ EPS ∧ G.interArea b a ≤ EPS) acc.1 →
      (∀ sh ∈ (l.foldl (eval_step G W H) acc).1, 0 ≤ (G.boundsOf sh).1 ∧ 0 ≤ (G.boundsOf sh).2.1 ∧
          (G.boundsOf sh).2.2.1 ≤ W ∧ (G.boundsOf sh).2.2.2 ≤ H) ∧
      List.Pairwise (fun a b => G.interArea a b ≤ EPS ∧ G.interArea b a ≤ EPS)
        (l.foldl (eval_step G W H) acc).1 := by
  intro l
  induction l with
  | nil => intro acc hb hp; exact ⟨hb, hp⟩
  | cons e rest ih =>
    intro acc hb hp
    simp only [List.foldl_cons]
    rcases eval_step_cases_strong G W H acc e with hg | ⟨sh, hbnd, hany, hg⟩
    · rw [hg]; exact ih acc hb hp
    · rw [hg]
      have hno := no_overlap_of_any_false G hemp sh acc.1 hany
      refine ih _ ?_ ?_
      · intro s hs
        rcases List.mem_append.mp hs with hs | hs
        · exact hb s hs
        · rcases List.mem_singleton.mp hs with rfl
          exact hbnd
      · rw [List.pairwise_append]
        refine ⟨hp, List.pairwise_singleton _ _, ?_⟩
        intro a ha b hbm
        rcases List.mem_singleton.mp hbm with rfl
        exact ⟨by rw [hsym]; exact hno a ha, hno a ha⟩

/-- Claim C3: at every step of the sequential acceptance loop (that is,
for every prefix of the layout), under the geometric facts that
intersection area is symmetric and vanishes for non-intersecting shapes,
the accepted shapes are pairwise non-overlapping beyond the 1e-6
tolerance and each accepted shape's axis-aligned bounds lie within
[0, sheet_width] x [0, sheet_height]. -/
theorem C3_accept_invariant {S : Type} (G : Geom S)
    (hsym : ∀ a b, G.interArea a b = G.interArea b a)
    (hemp : ∀ a b, G.intersects a b = false → G.interArea a b = 0)
    (layout : List Entry) (W H : ℚ) (n : ℕ) :
    (∀ sh ∈ (place_loop G (layout.take n) W H).1,
        0 ≤ (G.boundsOf sh).1 ∧ 0 ≤ (G.boundsOf sh).2.1 ∧
        (G.boundsOf sh).2.2.1 ≤ W ∧ (G.boundsOf sh).2.2.2 ≤ H) ∧
    List.Pairwise (fun a b => G.interArea a b ≤ EPS ∧ G.interArea b a ≤ EPS)
      (place_loop G (layout.take n) W H).1 := by
  exact eval_inv_preserved G hsym hemp W H (layout.take n) ([], 0)
    (by intro sh h; cases h) (List.Pairwise.nil)

/-- Witness for C3: the hypotheses are discharged at a concrete geometry
backend and a concrete one-entry layout. -/
theorem C3_accept_invariant_witness :
    (∀ a b : Unit, UnitGeom.interArea a b = UnitGeom.interArea b a) ∧
    (∀ a b : Unit, UnitGeom.intersects a b = false → UnitGeom.interArea a b = 0) ∧
    ((∀ sh ∈ (place_loop UnitGeom ([(wPart, 0, 0, 0)].take 1) 2 2).1,
        0 ≤ (UnitGeom.boundsOf sh).1 ∧ 0 ≤ (UnitGeom.boundsOf sh).2.1 ∧
        (UnitGeom.boundsOf sh).2.2.1 ≤ 2 ∧ (UnitGeom.boundsOf sh).2.2.2 ≤ 2) ∧
      List.Pairwise (fun a b => UnitGeom.interArea a b ≤ EPS ∧ UnitGeom.interArea b a ≤ EPS)
        (place_loop UnitGeom ([(wPart, 0, 0, 0)].take 1) 2 2).1) :=
  ⟨fun _ _ => rfl, fun _ _ _ => rfl,
   C3_accept_invariant UnitGeom (fun _ _ => rfl) (fun _ _ _ => rfl) [(wPart, 0, 0, 0)] 2 2 1⟩

/-- pyLower is the identity on the already lower-case tag rectangle. -/
theorem pyLower_rectangle : pyLower "rectangle" = "rectangle" := rfl

/-- shapely polygon areas are nonnegative. -/
theorem areaQ_nonneg (pts : QShape) : 0 ≤ areaQ pts := by
  unfold areaQ; positivity

/-- When every shape area is nonnegative, the running accepted area of the
evaluation loop stays nonnegative. -/
theorem total_nonneg {S : Type} (G : Geom S) (harea : ∀ s, 0 ≤ G.area s) (W H : ℚ) :
    ∀ (l : List Entry) (acc : List S × ℚ), 0 ≤ acc.2 → 0 ≤ (l.foldl (eval_step G W H) acc).2 := by
  intro l
  induction l with
  | nil => intro acc h; simpa using h
  | cons e rest ih =>
    intro acc h
    simp only [List.foldl_cons]
    rcases eval_step_cases G W H acc e with hg | ⟨sh, hg⟩ <;> rw [hg]
    · exact ih acc h
    · exact ih _ (by have := harea sh; simp only []; linarith)

/-- If the evaluation loop accepts nothing, the running area is
unchanged. -/
theorem total_zero_of_no_accept {S : Type} (G : Geom S) (W H : ℚ) :
    ∀ (l : List Entry) (acc : List S × ℚ),
      (l.foldl (eval_step G W H) acc).1.length = acc.1.length →
      (l.foldl (eval_step G W H) acc).2 = acc.2 := by
  intro l
  induction l with
  | nil => intro acc _; rfl
  | cons e rest ih =>
    intro acc h
    simp only [List.foldl_cons] at h ⊢
    rcases eval_step_cases G W H acc e with hg | ⟨sh, hg⟩
    · rw [hg] at h ⊢; exact ih acc h
    · exfalso
      rw [hg] at h
      have hmono := foldl_eval_length_mono G W H rest (acc.1 ++ [sh], acc.2 + G.area sh)
      simp only [List.length_append, List.length_cons, List.length_nil] at h hmono
      omega

/-- Claim C2, amended.  For every geometry backend with nonnegative shape
areas: the fitness-side utilization is nonnegative, and equals 0 when the
sheet area is 0 or when no part is accepted; calculate_layout_stats
raises ZeroDivisionError (returns none) when the sheet area is 0, and for
a positive sheet area reports exactly the fitness-side utilization.  (The
original claim's bound utilization ≤ 100 and its zero-sheet clause for
the statistics side are refuted by C2_utilization_counterexample.) -/
theorem C2_utilization_amended {S : Type} (G : Geom S) (harea : ∀ s, 0 ≤ G.area s)
    (layout : List Entry) (W H : ℚ) :
    0 ≤ utilization_of G layout W H ∧
    (W * H = 0 → utilization_of G layout W H = 0) ∧
    ((place_loop G layout W H).1 = [] → utilization_of G layout W H = 0) ∧
    (W * H = 0 → calculate_layout_stats G layout W H = none) ∧
    (0 < W * H → ∃ st, calculate_layout_stats G layout W H = some st ∧
        st.utilization = utilization_of G layout W H) := by
  refine ⟨?_, ?_, ?_, ?_, ?_⟩
  · unfold utilization_of
    split_ifs with h
    · have ht := total_nonneg G harea W H layout ([], 0) le_rfl
      unfold place_loop
      positivity
    · exact le_refl 0
  · intro h
    unfold utilization_of
    rw [h]
    simp
  · intro h
    have ht : (place_loop G layout W H).2 = 0 := by
      have hlen : (layout.foldl (eval_step G W H) (([] : List S), (0 : ℚ))).1.length = 0 := by
        have := congrArg List.length h
        simpa [place_loop] using this
      have := total_zero_of_no_accept G W H layout ([], 0) (by simpa using hlen)
      simpa [place_loop] using this
    unfold utilization_of
    rw [ht]
    simp
  · intro h
    unfold calculate_layout_stats pydiv
    simp [h]
  · intro h
    have hne : W * H ≠ 0 := ne_of_gt h
    have hl := loops_agree G W H layout [] 0 0
    unfold calculate_layout_stats pydiv
    simp only [stats_loop] at *
    rw [hl]
    simp only [hne, if_neg, if_false]
    refine ⟨_, rfl, ?_⟩
    unfold utilization_of
    rw [if_pos h]
    simp [place_loop]

/-- Counterexample to claim C2 as stated: on an empty layout with a 0 x 0
sheet, calculate_layout_stats raises ZeroDivisionError instead of
reporting utilization 0; and on the stacked two-rectangle layout over the
(1/1024)-square sheet, the fitness-side utilization is 200, violating
utilization ≤ 100 (each rectangle covers the whole sheet and their full
overlap, 2^-20, is below the 1e-6 tolerance, so both are accepted). -/
theorem C2_utilization_counterexample :
    calculate_layout_stats (QGeom tr0) ([] : List Entry) 0 0 = none ∧
    utilization_of (QGeom tr0) stackedLayout (1/1024) (1/1024) = 200 := by
  constructor
  · norm_num [calculate_layout_stats, stats_loop, pydiv]
  · norm_num [utilization_of, place_loop, eval_step, QGeom, stackedLayout, boxPart,
      create_part_from_dict, pyLower_rectangle, boxShape, rotateQ, translateQ, boundsQ, areaQ,
      shoelaceQ, cyclePairs, intersectsQ, interAreaQ, clipPoly, clipEdge, cross2, lineInter, EPS,
      Except.toOption, abs]

/-- Witness for the amended C2, at the concrete rational backend and a
concrete layout and sheet. -/
theorem C2_utilization_witness :
    (∀ s : QShape, 0 ≤ (QGeom tr0).area s) ∧
    (0 ≤ utilization_of (QGeom tr0) stackedLayout (1/1024) (1/1024) ∧
     ((1 : ℚ)/1024 * (1/1024) = 0 → utilization_of (QGeom tr0) stackedLayout (1/1024) (1/1024) = 0) ∧
     ((place_loop (QGeom tr0) stackedLayout (1/1024) (1/1024)).1 = [] →
        utilization_of (QGeom tr0) stackedLayout (1/1024) (1/1024) = 0) ∧
     ((1 : ℚ)/1024 * (1/1024) = 0 →
        calculate_layout_stats (QGeom tr0) stackedLayout (1/1024) (1/1024) = none) ∧
     (0 < (1 : ℚ)/1024 * (1/1024) → ∃ st,
        calculate_layout_stats (QGeom tr0) stackedLayout (1/1024) (1/1024) = some st ∧
        st.utilization = utilization_of (QGeom tr0) stackedLayout (1/1024) (1/1024))) :=
  ⟨fun s => areaQ_nonneg s,
   C2_utilization_amended (QGeom tr0) (fun s => areaQ_nonneg s) stackedLayout (1/1024) (1/1024)⟩

/-- Claim C4: the returned fitness equals
utilization * (0.5 + 0.5 * placement_ratio) with
placement_ratio = accepted_count / N (0 when N = 0); consequently two
layouts over the same number N > 0 of expanded parts with the same
nonzero accepted area but different accepted counts receive different
scores.  (The hypothesis 0 < W * H is implicit in the claim: a shape
accepted inside the sheet has positive area only if the sheet does.) -/
theorem C4_fitness_formula {S : Type} (G : Geom S) (l1 l2 : List Entry) (W H : ℚ)
    (hlen : l1.length = l2.length) (hN : l1.length ≠ 0) (hWH : 0 < W * H)
    (hA : (place_loop G l1 W H).2 = (place_loop G l2 W H).2)
    (hA0 : (place_loop G l1 W H).2 ≠ 0)
    (hc : (place_loop G l1 W H).1.length ≠ (place_loop G l2 W H).1.length) :
    (∀ l : List Entry, evaluate_layout G l W H =
        utilization_of G l W H * (1/2 + 1/2 * placement_ratio_of G l W H)) ∧
    evaluate_layout G l1 W H ≠ evaluate_layout G l2 W H := by
  have hform : ∀ l : List Entry, evaluate_layout G l W H =
      utilization_of G l W H * (1/2 + 1/2 * placement_ratio_of G l W H) := by
    intro l
    rfl
  refine ⟨hform, ?_⟩
  rw [hform l1, hform l2]
  have hu1 : utilization_of G l1 W H = utilization_of G l2 W H := by
    unfold utilization_of
    rw [hA]
  have hune : utilization_of G l1 W H ≠ 0 := by
    unfold utilization_of
    rw [if_pos hWH]
    intro hcon
    apply hA0
    field_simp at hcon
  rw [← hu1]
  intro hcon
  have h2 := mul_left_cancel₀ hune hcon
  have h3 : placement_ratio_of G l1 W H = placement_ratio_of G l2 W H := by linarith
  unfold placement_ratio_of at h3
  rw [if_pos hN, if_pos (by rw [← hlen]; exact hN), ← hlen] at h3
  field_simp at h3
  exact hc h3

/-- Witness for C4, at the concrete rational backend: dropLayout (area 2,
one part placed) and fullLayout (area 2, two parts placed) on a 10 x 10
sheet get scores 3/2 and 2. -/
theorem C4_fitness_formula_witness :
    (dropLayout.length = fullLayout.length ∧ dropLayout.length ≠ 0 ∧ (0 : ℚ) < 10 * 10 ∧
     (place_loop (QGeom tr0) dropLayout 10 10).2 = (place_loop (QGeom tr0) fullLayout 10 10).2 ∧
     (place_loop (QGeom tr0) dropLayout 10 10).2 ≠ 0 ∧
     (place_loop (QGeom tr0) dropLayout 10 10).1.length ≠
       (place_loop (QGeom tr0) fullLayout 10 10).1.length) ∧
    ((∀ l : List Entry, evaluate_layout (QGeom tr0) l 10 10 =
        utilization_of (QGeom tr0) l 10 10 * (1/2 + 1/2 * placement_ratio_of (QGeom tr0) l 10 10)) ∧
     evaluate_layout (QGeom tr0) dropLayout 10 10 ≠ evaluate_layout (QGeom tr0) fullLayout 10 10) := by
  have h1 : (place_loop (QGeom tr0) dropLayout 10 10).2 = 2 ∧
      (place_loop (QGeom tr0) dropLayout 10 10).1.length = 1 := by
    norm_num [place_loop, eval_step, QGeom, dropLayout, boxPart, create_part_from_dict,
      pyLower_rectangle, boxShape, rotateQ, translateQ, boundsQ, areaQ, shoelaceQ, cyclePairs,
      intersectsQ, interAreaQ, clipPoly, clipEdge, cross2, lineInter, EPS, Except.toOption, abs]
  have h2 : (place_loop (QGeom tr0) fullLayout 10 10).2 = 2 ∧
      (place_loop (QGeom tr0) fullLayout 10 10).1.length = 2 := by
    norm_num [place_loop, eval_step, QGeom, fullLayout, boxPart, create_part_from_dict,
      pyLower_rectangle, boxShape, rotateQ, translateQ, boundsQ, areaQ, shoelaceQ, cyclePairs,
      intersectsQ, interAreaQ, clipPoly, clipEdge, cross2, lineInter, EPS, Except.toOption, abs]
  have ha : dropLayout.length = fullLayout.length := by norm_num [dropLayout, fullLayout]
  have hb : dropLayout.length ≠ 0 := by norm_num [dropLayout]
  have hcq : (0 : ℚ) < 10 * 10 := by norm_num
  have hd : (place_loop (QGeom tr0) dropLayout 10 10).2 =
      (place_loop (QGeom tr0) fullLayout 10 10).2 := by
    rw [h1.1, h2.1]
  have he : (place_loop (QGeom tr0) dropLayout 10 10).2 ≠ 0 := by
    rw [h1.1]; norm_num
  have hf : (place_loop (QGeom tr0) dropLayout 10 10).1.length ≠
      (place_loop (QGeom tr0) fullLayout 10 10).1.length := by
    rw [h1.2, h2.2]; norm_num
  exact ⟨⟨ha, hb, hcq, hd, he, hf⟩,
    C4_fitness_formula (QGeom tr0) dropLayout fullLayout 10 10 ha hb hcq hd he hf⟩

/-- Claim C5: for parents of equal length 3N with N >= 2 and the
randrange(1, N) draw r, crossover cuts at r * 3 - a multiple of 3, at
least 3 and at most len - 3, so no (x, y, rotation) triple is split -
swaps the gene tails, conserves the total gene count, and invalidates
both offspring's cached fitness; moreover r maps the randrange support
{1, ..., N-1} bijectively onto the cut-index set {3, 6, ..., 3(N-1)}, so
the uniform draw of r induces a uniform cut choice over that set. -/
theorem C5_crossover_cut (ind1 ind2 : Individual) (N r : ℕ)
    (h1 : ind1.genes.length = 3 * N) (h2 : ind2.genes.length = 3 * N)
    (hN : 2 ≤ N) (hr1 : 1 ≤ r) (hr2 : r < N) :
    (r * 3) % 3 = 0 ∧ 3 ≤ r * 3 ∧ r * 3 ≤ ind1.genes.length - 3 ∧
    (crossover r ind1 ind2).1.genes = ind1.genes.take (r * 3) ++ ind2.genes.drop (r * 3) ∧
    (crossover r ind1 ind2).2.genes = ind2.genes.take (r * 3) ++ ind1.genes.drop (r * 3) ∧
    (crossover r ind1 ind2).1.genes.length + (crossover r ind1 ind2).2.genes.length =
      ind1.genes.length + ind2.genes.length ∧
    (crossover r ind1 ind2).1.fitness = none ∧ (crossover r ind1 ind2).2.fitness = none ∧
    (Finset.image (fun k => k * 3) (Finset.Ico 1 N) =
      Finset.filter (fun c => c % 3 = 0) (Finset.Icc 3 (3 * N - 3))) ∧
    (∀ a ∈ Finset.Ico 1 N, ∀ b ∈ Finset.Ico 1 N, a * 3 = b * 3 → a = b) := by
  have hgt : 3 < ind1.genes.length := by omega
  have hcx : crossover r ind1 ind2 =
      (⟨ind1.genes.take (r * 3) ++ ind2.genes.drop (r * 3), none⟩,
       ⟨ind2.genes.take (r * 3) ++ ind1.genes.drop (r * 3), none⟩) := by
    unfold crossover
    rw [if_pos hgt]
  refine ⟨by omega, by omega, by omega, by rw [hcx], by rw [hcx], ?_, by rw [hcx], by rw [hcx],
    ?_, ?_⟩
  · rw [hcx]
    simp only [List.length_append, List.length_take, List.length_drop]
    omega
  · ext c
    simp only [Finset.mem_image, Finset.mem_Ico, Finset.mem_filter, Finset.mem_Icc]
    constructor
    · rintro ⟨k, ⟨hk1, hk2⟩, rfl⟩
      omega
    · rintro ⟨⟨hc1, hc2⟩, hc3⟩
      exact ⟨c / 3, by omega, by omega⟩
  · intro a _ b _ hab
    omega

/-- Witness for C5 at two concrete six-gene parents (N = 2, draw r = 1). -/
theorem C5_crossover_cut_witness :
    (wInd1.genes.length = 3 * 2 ∧ wInd2.genes.length = 3 * 2 ∧ 2 ≤ 2 ∧ 1 ≤ 1 ∧ 1 < 2) ∧
    ((1 * 3) % 3 = 0 ∧ 3 ≤ 1 * 3 ∧ 1 * 3 ≤ wInd1.genes.length - 3 ∧
     (crossover 1 wInd1 wInd2).1.genes = wInd1.genes.take (1 * 3) ++ wInd2.genes.drop (1 * 3) ∧
     (crossover 1 wInd1 wInd2).2.genes = wInd2.genes.take (1 * 3) ++ wInd1.genes.drop (1 * 3) ∧
     (crossover 1 wInd1 wInd2).1.genes.length + (crossover 1 wInd1 wInd2).2.genes.length =
       wInd1.genes.length + wInd2.genes.length ∧
     (crossover 1 wInd1 wInd2).1.fitness = none ∧ (crossover 1 wInd1 wInd2).2.fitness = none ∧
     (Finset.image (fun k => k * 3) (Finset.Ico 1 2) =
       Finset.filter (fun c => c % 3 = 0) (Finset.Icc 3 (3 * 2 - 3))) ∧
     (∀ a ∈ Finset.Ico 1 2, ∀ b ∈ Finset.Ico 1 2, a * 3 = b * 3 → a = b)) := by
  have e1 : wInd1.genes.length = 3 * 2 := by simp [wInd1]
  have e2 : wInd2.genes.length = 3 * 2 := by simp [wInd2]
  exact ⟨⟨e1, e2, le_refl 2, le_refl 1, Nat.one_lt_two⟩,
    C5_crossover_cut wInd1 wInd2 2 1 e1 e2 (le_refl 2) (le_refl 1) Nat.one_lt_two⟩

/-- A part whose shape construction raises is skipped: the evaluation-loop
iteration leaves the accumulator unchanged. -/
theorem eval_step_skip {S : Type} (G : Geom S) (W H : ℚ) (acc : List S × ℚ) (e : Entry)
    (he : G.create e.1 = none) : eval_step G W H acc e = acc := by
  rcases e with ⟨p, x, y, rot⟩
  simp only [] at he
  simp [eval_step, he]

/-- Claim C7: create_part_from_dict fails with the unsupported-kind error
for every type tag outside rectangle/circle/triangle, and inside the
fitness evaluation loop a part whose shape construction raises is
absorbed: it is not placed, contributes no area, and the remaining parts
are evaluated exactly as if the failing entry were absent. -/
theorem C7_failsoft_eval (tr : Trig) (p : PartInfo)
    (hp : pyLower p.type ∉ (["rectangle", "circle", "triangle"] : List String))
    {S : Type} (G : Geom S) (e : Entry) (he : G.create e.1 = none)
    (l1 l2 : List Entry) (W H : ℚ) :
    create_part_from_dict tr p = Except.error PartErr.unsupportedType ∧
    place_loop G (l1 ++ e :: l2) W H = place_loop G (l1 ++ l2) W H := by
  constructor
  · have h1 : pyLower p.type ≠ "rectangle" := fun h => hp (by simp [h])
    have h2 : pyLower p.type ≠ "circle" := fun h => hp (by simp [h])
    have h3 : pyLower p.type ≠ "triangle" := fun h => hp (by simp [h])
    simp only [create_part_from_dict, if_neg h1, if_neg h2, if_neg h3]
  · unfold place_loop
    rw [List.foldl_append, List.foldl_append, List.foldl_cons, eval_step_skip G W H _ e he]

/-- Witness for C7: an unsupported hexagon part inside a concrete layout
is skipped while the following rectangle is still evaluated. -/
theorem C7_failsoft_eval_witness :
    (pyLower hexPart.type ∉ (["rectangle", "circle", "triangle"] : List String) ∧
     (QGeom tr0).create (hexPart, (1 : ℚ), (1 : ℚ), (0 : ℚ)).1 = none) ∧
    (create_part_from_dict tr0 hexPart = Except.error PartErr.unsupportedType ∧
     place_loop (QGeom tr0)
         ([] ++ (hexPart, (1 : ℚ), (1 : ℚ), (0 : ℚ)) :: [(boxPart 1 1, 5, 5, 0)]) 10 10 =
       place_loop (QGeom tr0) ([] ++ [(boxPart 1 1, 5, 5, 0)]) 10 10) := by
  have hp : pyLower hexPart.type ∉ (["rectangle", "circle", "triangle"] : List String) := by
    decide
  have he : (QGeom tr0).create (hexPart, (1 : ℚ), (1 : ℚ), (0 : ℚ)).1 = none := rfl
  exact ⟨⟨hp, he⟩,
    C7_failsoft_eval tr0 hexPart hp (QGeom tr0) (hexPart, 1, 1, 0) he []
      [(boxPart 1 1, 5, 5, 0)] 10 10⟩

/-- A genotype built by create_individual has three genes per part,
whatever the random draws. -/
theorem create_individual_length (rx ry rr : ℕ → ℚ) (parts : List PartInfo) :
    (create_individual rx ry rr parts).genes.length = 3 * parts.length := by
  unfold create_individual
  simp only []
  rw [List.length_flatMap]
  induction parts.length with
  | zero => simp
  | succ n ih => rw [List.range_succ]; simp [ih]; omega

/-- Claim C8: catalog expansion distributes over catalog concatenation
(catalog order, then replica order within each entry); an entry of
quantity q >= 1 expands to exactly q parts, with ids suffixed _1.._q when
q > 1 and the id kept unchanged when q = 1; and every genotype created
for the expanded part set has exactly 3 x len(expand(catalog)) genes. -/
theorem C8_expansion (catalog c2 : List PartInfo) (p : PartInfo) (rx ry rr : ℕ → ℚ)
    (hp : 1 ≤ p.quantity?.getD 1) :
    expand_parts_list (catalog ++ c2) = expand_parts_list catalog ++ expand_parts_list c2 ∧
    ((expand_parts_list [p]).length : ℤ) = p.quantity?.getD 1 ∧
    (1 < p.quantity?.getD 1 →
      (expand_parts_list [p]).map (fun q => q.id) =
        (List.range (p.quantity?.getD 1).toNat).map (fun i => p.id ++ "_" ++ toString (i + 1))) ∧
    (p.quantity?.getD 1 = 1 → expand_parts_list [p] = [p]) ∧
    (create_individual rx ry rr (expand_parts_list catalog)).genes.length =
      3 * (expand_parts_list catalog).length := by
  refine ⟨?_, ?_, ?_, ?_, create_individual_length rx ry rr _⟩
  · unfold expand_parts_list
    exact List.flatMap_append catalog c2 _
  · unfold expand_parts_list
    simp only [List.flatMap_cons, List.flatMap_nil, List.append_nil, List.length_map,
      List.length_range]
    omega
  · intro hgt
    unfold expand_parts_list
    simp only [List.flatMap_cons, List.flatMap_nil, List.append_nil, List.map_map]
    apply List.map_congr_left
    intro i _
    simp [setId, if_pos hgt]
  · intro h1
    unfold expand_parts_list
    simp only [List.flatMap_cons, List.flatMap_nil, List.append_nil, h1]
    norm_num [setId]

/-- Witness for C8 at a concrete catalog: the quantity-3 circle expands to
ids c1_1, c1_2, c1_3 and a quantity-free rectangle keeps its id. -/
theorem C8_expansion_witness :
    (1 ≤ circPart3.quantity?.getD 1) ∧
    (expand_parts_list ([circPart3, wPart] ++ [wPart]) =
        expand_parts_list [circPart3, wPart] ++ expand_parts_list [wPart] ∧
     ((expand_parts_list [circPart3]).length : ℤ) = circPart3.quantity?.getD 1 ∧
     (1 < circPart3.quantity?.getD 1 →
       (expand_parts_list [circPart3]).map (fun q => q.id) =
         (List.range (circPart3.quantity?.getD 1).toNat).map
           (fun i => circPart3.id ++ "_" ++ toString (i + 1))) ∧
     (circPart3.quantity?.getD 1 = 1 → expand_parts_list [circPart3] = [circPart3]) ∧
     (create_individual (fun _ => 0) (fun _ => 0) (fun _ => 0)
         (expand_parts_list [circPart3, wPart])).genes.length =
       3 * (expand_parts_list [circPart3, wPart]).length) := by
  have hp : 1 ≤ circPart3.quantity?.getD 1 := by decide
  exact ⟨hp,
    C8_expansion [circPart3, wPart] [wPart] circPart3 (fun _ => 0) (fun _ => 0) (fun _ => 0) hp⟩

/-- Claim C10: expansion never validates quantity: an entry whose
quantity is 0 or negative contributes no expanded part and raises no
error (expansion is a total function returning the remaining entries'
expansion), and an entry with no quantity key at all is treated as
quantity 1 (one copy, id unchanged). -/
theorem C10_quantity_unvalidated (a b : List PartInfo) (p q : PartInfo)
    (hp : p.quantity?.getD 1 ≤ 0) (hq : q.quantity? = none) :
    expand_parts_list (a ++ p :: b) = expand_parts_list a ++ expand_parts_list b ∧
    expand_parts_list [p] = [] ∧
    expand_parts_list [q] = [q] := by
  have hblock : ∀ (quantity : Int), quantity ≤ 0 → quantity.toNat = 0 := by
    intro n h; omega
  refine ⟨?_, ?_, ?_⟩
  · unfold expand_parts_list
    rw [List.flatMap_append, List.flatMap_cons]
    simp only []
    rw [hblock _ hp]
    simp
  · unfold expand_parts_list
    rw [List.flatMap_cons]
    simp only []
    rw [hblock _ hp]
    simp
  · unfold expand_parts_list
    rw [List.flatMap_cons]
    simp only [hq, Option.getD_none]
    norm_num [setId]

/-- Witness for C10: a quantity -2 rectangle inside a concrete catalog
vanishes from the expansion, and a part without the quantity key expands
to itself. -/
theorem C10_quantity_unvalidated_witness :
    (negPart.quantity?.getD 1 ≤ 0 ∧ wPart.quantity? = none) ∧
    (expand_parts_list ([wPart] ++ negPart :: [hexPart]) =
        expand_parts_list [wPart] ++ expand_parts_list [hexPart] ∧
     expand_parts_list [negPart] = [] ∧
     expand_parts_list [wPart] = [wPart]) := by
  have hp : negPart.quantity?.getD 1 ≤ 0 := by decide
  have hq : wPart.quantity? = none := rfl
  exact ⟨⟨hp, hq⟩, C10_quantity_unvalidated [wPart] [hexPart] negPart wPart hp hq⟩

/-- Claim C9: the three geometry helpers dispatch on the lower-cased type
tag: replacing the tag by any string with the same lower-casing leaves
shape, bounds and area unchanged, and each helper raises the
unsupported-kind error exactly when the lower-cased tag is outside
rectangle/circle/triangle (a supported tag with a missing numeric key
raises KeyError, not the unsupported-kind error). -/
theorem C9_case_insensitive (tr : Trig) (p : PartInfo) (t2 : String)
    (h : pyLower t2 = pyLower p.type) :
    create_part_from_dict tr (setType p t2) = create_part_from_dict tr p ∧
    get_part_bounds (setType p t2) = get_part_bounds p ∧
    calculate_part_area tr (setType p t2) = calculate_part_area tr p ∧
    (create_part_from_dict tr p = Except.error PartErr.unsupportedType ↔
      pyLower p.type ∉ (["rectangle", "circle", "triangle"] : List String)) ∧
    (get_part_bounds p = Except.error PartErr.unsupportedType ↔
      pyLower p.type ∉ (["rectangle", "circle", "triangle"] : List String)) ∧
    (calculate_part_area tr p = Except.error PartErr.unsupportedType ↔
      pyLower p.type ∉ (["rectangle", "circle", "triangle"] : List String)) := by
  refine ⟨?_, ?_, ?_, ?_, ?_, ?_⟩
  · simp only [create_part_from_dict, setType, h]
  · simp only [get_part_bounds, setType, h]
  · simp only [calculate_part_area, setType, h]
  · by_cases h1 : pyLower p.type = "rectangle"
    · rcases hw : p.width? <;> rcases hh : p.height? <;>
        simp [create_part_from_dict, h1, hw, hh]
    · by_cases h2 : pyLower p.type = "circle"
      · rcases hr : p.radius? <;> simp [create_part_from_dict, h1, h2, hr]
      · by_cases h3 : pyLower p.type = "triangle"
        · rcases hb : p.base? <;> rcases hh : p.height? <;>
            simp [create_part_from_dict, h1, h2, h3, hb, hh]
        · simp [create_part_from_dict, h1, h2, h3]
  · by_cases h1 : pyLower p.type = "rectangle"
    · rcases hw : p.width? <;> rcases hh : p.height? <;>
        simp [get_part_bounds, h1, hw, hh]
    · by_cases h2 : pyLower p.type = "circle"
      · rcases hr : p.radius? <;> simp [get_part_bounds, h1, h2, hr]
      · by_cases h3 : pyLower p.type = "triangle"
        · rcases hb : p.base? <;> rcases hh : p.height? <;>
            simp [get_part_bounds, h1, h2, h3, hb, hh]
        · simp [get_part_bounds, h1, h2, h3]
  · by_cases h1 : pyLower p.type = "rectangle"
    · rcases hw : p.width? <;> rcases hh : p.height? <;>
        simp [calculate_part_area, h1, hw, hh]
    · by_cases h2 : pyLower p.type = "circle"
      · rcases hr : p.radius? <;> simp [calculate_part_area, h1, h2, hr]
      · by_cases h3 : pyLower p.type = "triangle"
        · rcases hb : p.base? <;> rcases hh : p.height? <;>
            simp [calculate_part_area, h1, h2, h3, hb, hh]
        · simp [calculate_part_area, h1, h2, h3]

/-- Witness for C9 at the tags Circle and CIRCLE, which lower-case to the
same supported tag circle. -/
theorem C9_case_insensitive_witness :
    (pyLower "Circle" = pyLower capsCircPart.type) ∧
    (create_part_from_dict tr0 (setType capsCircPart "Circle") =
        create_part_from_dict tr0 capsCircPart ∧
     get_part_bounds (setType capsCircPart "Circle") = get_part_bounds capsCircPart ∧
     calculate_part_area tr0 (setType capsCircPart "Circle") =
        calculate_part_area tr0 capsCircPart ∧
     (create_part_from_dict tr0 capsCircPart = Except.error PartErr.unsupportedType ↔
       pyLower capsCircPart.type ∉ (["rectangle", "circle", "triangle"] : List String)) ∧
     (get_part_bounds capsCircPart = Except.error PartErr.unsupportedType ↔
       pyLower capsCircPart.type ∉ (["rectangle", "circle", "triangle"] : List String)) ∧
     (calculate_part_area tr0 capsCircPart = Except.error PartErr.unsupportedType ↔
       pyLower capsCircPart.type ∉ (["rectangle", "circle", "triangle"] : List String))) :=
  ⟨rfl, C9_case_insensitive tr0 capsCircPart "Circle" rfl⟩

/-- The 32 sample indices, listed. -/
theorem range32 : List.range 32 =
    [0, 1, 2, 3, 4, 5, 6, 7, 8, 9, 10, 11, 12, 13, 14, 15, 16, 17, 18, 19, 20, 21, 22, 23, 24,
     25, 26, 27, 28, 29, 30, 31] := rfl

/-- The shoelace sum of the 32-gon the circle branch builds: each of the
32 cyclic edge terms contributes r^2 sin(2π/32). -/
theorem circle_poly_shoelace (r : ℝ) :
    shoelaceR (circle_poly_real r) = 32 * (r^2 * Real.sin (Real.pi / 16)) := by
  have hchord : ∀ a b : ℝ,
      r * Real.cos a * (r * Real.sin b) - r * Real.cos b * (r * Real.sin a) =
        r^2 * Real.sin (b - a) := by
    intro a b; rw [Real.sin_sub]; ring
  unfold circle_poly_real
  rw [range32]
  simp only [List.map_cons, List.map_nil]
  unfold shoelaceR cyclePairs
  simp only [List.zip_cons_cons, List.cons_append, List.nil_append, List.zip_nil_right,
    List.map_cons, List.map_nil, List.sum_cons, List.sum_nil, circle_pt]
  simp only [hchord]
  push_cast
  ring_nf
  have hlast : Real.sin (Real.pi * (-31 / 16)) = Real.sin (Real.pi * (1 / 16)) := by
    have h := Real.sin_add_two_pi (Real.pi * (-31 / 16))
    rw [show Real.pi * (-31 / 16) + 2 * Real.pi = Real.pi * (1 / 16) by ring] at h
    exact h.symm
  rw [hlast]
  ring

/-- sin(π/16) is positive. -/
theorem sin16_pos : 0 < Real.sin (Real.pi / 16) :=
  Real.sin_pos_of_pos_of_lt_pi (by positivity) (by nlinarith [Real.pi_pos])

/-- The area of the 32-gon circle approximation is 16 r^2 sin(π/16). -/
theorem circle_poly_area (r : ℝ) :
    polygon_area_real (circle_poly_real r) = 16 * r^2 * Real.sin (Real.pi / 16) := by
  unfold polygon_area_real
  rw [circle_poly_shoelace]
  rw [abs_of_nonneg (by nlinarith [sin16_pos, sq_nonneg r])]
  ring

/-- Claim C6, amended.  For a circle of radius r > 0, calculate_part_area
reports the closed form π r^2 while the 32-gon that create_part_from_dict
builds for overlap testing has area 16 r^2 sin(π/16); the closed form
strictly exceeds the polygon area, so the two do NOT match (the original
claim of equality is refuted by C6_circle_area_counterexample). -/
theorem C6_circle_area_mismatch (r : ℝ) (hr : 0 < r) :
    circle_area_closed r = Real.pi * r * r ∧
    polygon_area_real (circle_poly_real r) = 16 * r^2 * Real.sin (Real.pi / 16) ∧
    polygon_area_real (circle_poly_real r) < circle_area_closed r := by
  refine ⟨rfl, circle_poly_area r, ?_⟩
  rw [circle_poly_area r]
  unfold circle_area_closed
  have key : Real.sin (Real.pi / 16) < Real.pi / 16 := Real.sin_lt (by positivity)
  have h2 : 0 < r^2 := pow_pos hr 2
  nlinarith [mul_lt_mul_of_pos_right key h2]

/-- Counterexample to claim C6 as stated: at radius 1 the area of the
32-gon built for overlap testing differs from the closed-form circle
area π that calculate_part_area reports. -/
theorem C6_circle_area_counterexample :
    polygon_area_real (circle_poly_real 1) ≠ circle_area_closed 1 := by
  rw [circle_poly_area 1]
  unfold circle_area_closed
  have key : Real.sin (Real.pi / 16) < Real.pi / 16 := Real.sin_lt (by positivity)
  intro h
  nlinarith [key]

/-- Witness for the amended C6 at radius 1. -/
theorem C6_circle_area_mismatch_witness :
    (0 : ℝ) < 1 ∧
    (circle_area_closed 1 = Real.pi * 1 * 1 ∧
     polygon_area_real (circle_poly_real 1) = 16 * 1^2 * Real.sin (Real.pi / 16) ∧
     polygon_area_real (circle_poly_real 1) < circle_area_closed 1) :=
  ⟨one_pos, C6_circle_area_mismatch 1 one_pos⟩



